import Mathlib

/-!
Verification development for the medassist-rag repository.

The frontend (TypeScript, under `src/frontend`) and the database schema
(`src/scripts/init.sql`) are embedded from the source.  The backend core
(drug name canonicalizer, interaction resolver, interaction cache store,
conversation state manager) is part of the repository but its Python
sources are not in the `src/` snapshot, so those components are modelled
from the specification, as marked on each definition.
-/

namespace MedAssist

/-- Severity enum, from `src/scripts/init.sql` (`severity_level`) and
`src/frontend/lib/api.ts` (`DrugInteraction.severity`). -/
inductive Severity where
  | none
  | mild
  | moderate
  | severe
  | contraindicated
deriving DecidableEq, Repr

/-- Drug-domain error taxonomy from the spec (§7): `UnresolvedDrugName` for an
input empty after normalization, `TooManyDrugs` for a bounds violation. -/
inductive DrugError where
  | UnresolvedDrugName
  | TooManyDrugs
deriving DecidableEq, Repr

/-- Split a character list on whitespace, accumulating the current token in
reverse; helper for name normalization. -/
def splitWhitespaceAux : List Char → List Char → List String
  | [], cur => if cur = [] then [] else [⟨cur.reverse⟩]
  | c :: rest, cur =>
    if c.isWhitespace then
      if cur = [] then splitWhitespaceAux rest []
      else ⟨cur.reverse⟩ :: splitWhitespaceAux rest []
    else splitWhitespaceAux rest (c :: cur)

/-- Lower-case a string and split it into whitespace-separated tokens. -/
def tokensOf (s : String) : List String :=
  splitWhitespaceAux (s.data.map Char.toLower) []

/-- Modelled from the spec: the table of known packaging/dosage suffix tokens
stripped by the canonicalizer (§4.1); the Python canonicalizer is not in
`src/`. -/
def dosageSuffixes : List String :=
  ["mg", "mcg", "g", "ml", "iu", "tablet", "tablets", "capsule", "capsules",
   "er", "xr", "sr"]

/-- A token is dosage/packaging noise when it is a known suffix token or a
bare number (a dose quantity). -/
def isDosageToken (t : String) : Bool :=
  dosageSuffixes.contains t || t.data.all Char.isDigit

/-- Modelled from the spec: name normalization of the canonicalizer (§4.1) —
"normalizes case and whitespace, strips known packaging/dosage suffixes";
the Python canonicalizer is not in `src/`. -/
def normalizeName (s : String) : String :=
  String.intercalate " " (((tokensOf s).reverse.dropWhile isDosageToken).reverse)

/-- Modelled from the spec: the brand→generic alias table (§4.1, §9 "explicit,
versioned lookup table loaded at startup"); the seed table itself is not in
`src/`. -/
def aliasTable : List (String × String) :=
  [("tylenol", "acetaminophen"), ("advil", "ibuprofen"), ("motrin", "ibuprofen"),
   ("coumadin", "warfarin"), ("aldactone", "spironolactone"),
   ("zestril", "lisinopril"), ("glucophage", "metformin")]

/-- Modelled from the spec: `canonicalize(raw_name) -> CanonicalDrug identifier`
(§4.1) — normalize, resolve against the alias table, otherwise the normalized
string itself is the canonical identifier; fails with `UnresolvedDrugName`
only when the input is empty after normalization.  The Python canonicalizer is
not in `src/`. -/
def canonicalize (raw : String) : Except DrugError String :=
  let n := normalizeName raw
  if n = "" then .error .UnresolvedDrugName
  else
    match aliasTable.lookup n with
    | some g => .ok g
    | none => .ok n

example : normalizeName " Advil  200 mg " = "advil" := by decide

example : canonicalize "Tylenol" = .ok "acetaminophen" := rfl

/-- Lexicographic order on character lists, the order the backend uses for the
canonical (drug_a ≤ drug_b) pair normalization. -/
def charListLe : List Char → List Char → Bool
  | [], _ => true
  | _ :: _, [] => false
  | a :: as, b :: bs => if a = b then charListLe as bs else decide (a < b)

/-- Lexical order on strings (canonical drug identifiers). -/
def strLe (s t : String) : Bool := charListLe s.data t.data

theorem charListLe_total (l m : List Char) : charListLe l m = true ∨ charListLe m l = true := by
  induction l generalizing m with
  | nil => left; rfl
  | cons a as ih =>
    cases m with
    | nil => right; rfl
    | cons b bs =>
      by_cases hab : a = b
      · subst hab
        rcases ih bs with h | h
        · left; simpa [charListLe] using h
        · right; simpa [charListLe] using h
      · rcases lt_or_gt_of_ne hab with h | h
        · left; simp [charListLe, hab, h]
        · right; simp [charListLe, Ne.symm hab, h, asymm h]

theorem charListLe_antisymm {l m : List Char} (h1 : charListLe l m = true)
    (h2 : charListLe m l = true) : l = m := by
  induction l generalizing m with
  | nil =>
    cases m with
    | nil => rfl
    | cons b bs => simp [charListLe] at h2
  | cons a as ih =>
    cases m with
    | nil => simp [charListLe] at h1
    | cons b bs =>
      by_cases hab : a = b
      · subst hab
        simp only [charListLe, if_pos rfl] at h1 h2
        exact congrArg (a :: ·) (ih h1 h2)
      · simp only [charListLe, if_neg hab, if_neg (Ne.symm hab), decide_eq_true_eq] at h1 h2
        exact absurd h2 (asymm h1)

theorem strLe_total (s t : String) : strLe s t = true ∨ strLe t s = true :=
  charListLe_total s.data t.data

theorem strLe_antisymm {s t : String} (h1 : strLe s t = true) (h2 : strLe t s = true) :
    s = t := by
  cases s; cases t
  exact congrArg String.mk (charListLe_antisymm h1 h2)

example : strLe "abc" "abd" = true := by decide

/-- An ordered pair of canonical drug identifiers (the cache key). -/
abbrev Pair := String × String

/-- Normalize an unordered pair of identifiers to canonical lexical order
(drug_a ≤ drug_b), as enforced at write time per the spec (§3) and keyed by
`UNIQUE(drug_a, drug_b)` in `src/scripts/init.sql`. -/
def orderPair (a b : String) : Pair :=
  if strLe a b then (a, b) else (b, a)

/-- The drug interaction record, mirroring the `drug_interactions` table of
`src/scripts/init.sql` and `DrugInteraction` of `src/frontend/lib/api.ts`
(the id and timestamp columns, irrelevant to the claims, are omitted). -/
structure InteractionRecord where
  drug_a : String
  drug_b : String
  severity : Severity
  description : String
  mechanism : Option String
  management : Option String
  clinical_effects : List String
  source : Option String
deriving DecidableEq, Repr

/-- The stored key of a record: its identifier pair. -/
def recKey (r : InteractionRecord) : Pair := (r.drug_a, r.drug_b)

/-- Reorder a record's pair into canonical lexical order, the write-time
normalization of the spec (§3). -/
def canonRec (r : InteractionRecord) : InteractionRecord :=
  if strLe r.drug_a r.drug_b then r
  else { r with drug_a := r.drug_b, drug_b := r.drug_a }

/-- Modelled from the spec: the Interaction Cache Store (§4.2), a persistent
table of interaction records — the rows of `drug_interactions` in
`src/scripts/init.sql`; the Python data-access layer is not in `src/`. -/
abbrev CacheStore := List InteractionRecord

/-- Modelled from the spec: `get(pair) -> InteractionRecord | absent` (§4.2). -/
def get : CacheStore → Pair → Option InteractionRecord
  | [], _ => none
  | r :: st, p => if recKey r = p then some r else get st p

/-- Whether the store already holds a record for the given (ordered) key. -/
def hasKey : CacheStore → Pair → Bool
  | [], _ => false
  | r :: st, p => if recKey r = p then true else hasKey st p

/-- Replace the record whose key matches `r`'s key by `r`. -/
def overwrite (r : InteractionRecord) : CacheStore → CacheStore
  | [] => []
  | x :: st => if recKey x = recKey r then r :: st else x :: overwrite r st

/-- Modelled from the spec: `put(record)` (§4.2) — the pair is normalized to
canonical order at write time and the put is an idempotent upsert: it
overwrites any existing record for the same pair rather than duplicating it
(the `UNIQUE(drug_a, drug_b)` upsert of `src/scripts/init.sql`). -/
def put (st : CacheStore) (r0 : InteractionRecord) : CacheStore :=
  let r := canonRec r0
  if hasKey st (recKey r) then overwrite r st else r :: st

/-- Two ordered pairs represent the same unordered pair when they are equal or
swapped. -/
def sameUnordered (p q : Pair) : Prop := p = q ∨ p = (q.2, q.1)

/-- Well-formedness of the cache store: every stored record has its pair in
canonical lexical order, and no two records represent the same unordered
pair (spec §3 invariants). -/
def CacheWF (st : CacheStore) : Prop :=
  (∀ r ∈ st, strLe r.drug_a r.drug_b = true) ∧
  st.Pairwise (fun r s => ¬ sameUnordered (recKey r) (recKey s))

theorem canonRec_ordered (r : InteractionRecord) :
    strLe (canonRec r).drug_a (canonRec r).drug_b = true := by
  unfold canonRec
  rcases h : strLe r.drug_a r.drug_b with _ | _
  · rcases strLe_total r.drug_a r.drug_b with h' | h'
    · simp [h] at h'
    · simp [h, h']
  · simp [h]

theorem canonRec_key (r : InteractionRecord) :
    recKey (canonRec r) = recKey r ∨ recKey (canonRec r) = (r.drug_b, r.drug_a) := by
  unfold canonRec
  rcases h : strLe r.drug_a r.drug_b with _ | _
  · right; simp [recKey]
  · left; simp [recKey]

theorem hasKey_false_iff (st : CacheStore) (p : Pair) :
    hasKey st p = false ↔ ∀ x ∈ st, recKey x ≠ p := by
  induction st with
  | nil => simp [hasKey]
  | cons r st ih =>
    by_cases h : recKey r = p
    · simp [hasKey, h]
    · simp [hasKey, h, ih]

theorem overwrite_map_recKey (r : InteractionRecord) (st : CacheStore) :
    (overwrite r st).map recKey = st.map recKey := by
  induction st with
  | nil => rfl
  | cons x st ih =>
    by_cases hx : recKey x = recKey r
    · simp [overwrite, hx]
    · simp [overwrite, hx, ih]

theorem mem_overwrite {x r : InteractionRecord} {st : CacheStore}
    (h : x ∈ overwrite r st) : x ∈ st ∨ x = r := by
  induction st with
  | nil => simp [overwrite] at h
  | cons y st ih =>
    by_cases hy : recKey y = recKey r
    · simp only [overwrite, if_pos hy, List.mem_cons] at h
      rcases h with h | h
      · right; exact h
      · left; exact List.mem_cons_of_mem y h
    · simp only [overwrite, if_neg hy, List.mem_cons] at h
      rcases h with h | h
      · left; simp [h]
      · rcases ih h with h' | h'
        · left; exact List.mem_cons_of_mem y h'
        · right; exact h'

theorem overwrite_length (r : InteractionRecord) (st : CacheStore) :
    (overwrite r st).length = st.length := by
  have := congrArg List.length (overwrite_map_recKey r st)
  simpa using this

/-- Between two records both stored in canonical order, representing the same
unordered pair forces equal keys. -/
theorem sameUnordered_of_ordered {r s : InteractionRecord}
    (hr : strLe r.drug_a r.drug_b = true) (hs : strLe s.drug_a s.drug_b = true)
    (h : sameUnordered (recKey r) (recKey s)) : recKey r = recKey s := by
  rcases h with h | h
  · exact h
  · have h1 : r.drug_a = s.drug_b := congrArg Prod.fst h
    have h2 : r.drug_b = s.drug_a := congrArg Prod.snd h
    have hba : strLe s.drug_b s.drug_a = true := by rw [← h1, ← h2]; exact hr
    have : s.drug_a = s.drug_b := strLe_antisymm hs hba
    simp [recKey, h1, h2, this]

theorem put_preserves_wf (st : CacheStore) (r0 : InteractionRecord) (h : CacheWF st) :
    CacheWF (put st r0) := by
  obtain ⟨hord, hpw⟩ := h
  unfold put
  by_cases hk : hasKey st (recKey (canonRec r0)) = true
  · simp only [hk, if_true]
    constructor
    · intro x hx
      rcases mem_overwrite hx with h' | h'
      · exact hord x h'
      · rw [h']; exact canonRec_ordered r0
    · have hmap : ((overwrite (canonRec r0) st).map recKey).Pairwise
          (fun p q => ¬ sameUnordered p q) := by
        rw [overwrite_map_recKey]
        exact List.pairwise_map.mpr hpw
      exact List.pairwise_map.mp hmap
  · simp only [hk, if_false]
    constructor
    · intro x hx
      rcases List.mem_cons.mp hx with h' | h'
      · rw [h']; exact canonRec_ordered r0
      · exact hord x h'
    · refine List.Pairwise.cons ?_ hpw
      intro s hs hsame
      have hne : recKey s ≠ recKey (canonRec r0) :=
        (hasKey_false_iff st (recKey (canonRec r0))).mp (Bool.not_eq_true _ ▸ hk) s hs
      have heq : recKey (canonRec r0) = recKey s :=
        sameUnordered_of_ordered (canonRec_ordered r0) (hord s hs) hsame
      exact hne heq.symm

/-- Demo record with its pair already in canonical lexical order. -/
def demoRecord : InteractionRecord :=
  { drug_a := "lisinopril", drug_b := "spironolactone", severity := .severe,
    description := "Risk of hyperkalemia", mechanism := none, management := none,
    clinical_effects := ["hyperkalemia"], source := some "seed" }

/-- Demo record for the same unordered pair, written with the pair swapped. -/
def demoRecordSwapped : InteractionRecord :=
  { drug_a := "spironolactone", drug_b := "lisinopril", severity := .moderate,
    description := "Refreshed entry", mechanism := none, management := none,
    clinical_effects := [], source := none }

/-- C1: the Interaction Cache Store holds at most one InteractionRecord per
unordered pair of canonical drug identifiers: every stored record has its pair
in canonical lexical order (drug_a ≤ drug_b), and a `put` for a pair that
already has a record overwrites it (idempotent upsert, same store size) rather
than adding a second record; a `put` for a fresh pair inserts the canonically
ordered record. -/
theorem cache_pair_unique_upsert (st : CacheStore) (r0 : InteractionRecord)
    (h : CacheWF st) :
    CacheWF (put st r0) ∧
    (∀ x ∈ put st r0, strLe x.drug_a x.drug_b = true) ∧
    (hasKey st (recKey (canonRec r0)) = true → (put st r0).length = st.length) ∧
    (hasKey st (recKey (canonRec r0)) = false → put st r0 = canonRec r0 :: st) := by
  refine ⟨put_preserves_wf st r0 h, (put_preserves_wf st r0 h).1, ?_, ?_⟩
  · intro hk
    unfold put
    simp only [hk, if_true]
    exact overwrite_length _ _
  · intro hk
    unfold put
    simp [hk]

/-- Witness for C1: a put of a swapped-pair record over a store already holding
that unordered pair keeps the store at one well-formed record. -/
theorem cache_pair_unique_upsert_witness :
    CacheWF (put [demoRecord] demoRecordSwapped) ∧
    (put [demoRecord] demoRecordSwapped).length = 1 := by
  have hwf : CacheWF [demoRecord] := by
    constructor
    · intro r hr
      rw [List.mem_singleton.mp hr]
      decide
    · simp
  have h := cache_pair_unique_upsert [demoRecord] demoRecordSwapped hwf
  exact ⟨h.1, h.2.2.1 (by decide)⟩

/-- Deduplicate a list of canonical identifiers, keeping first occurrences;
`seen` accumulates the identifiers already kept. -/
def dedupFirstAux : List String → List String → List String
  | [], _ => []
  | a :: l, seen =>
    if seen.contains a then dedupFirstAux l seen
    else a :: dedupFirstAux l (a :: seen)

/-- Deduplicate canonical identifiers (spec §4.3 step 1: "checking the same
drug twice must not double-count"). -/
def dedupFirst (l : List String) : List String := dedupFirstAux l []

/-- Insert an identifier into a lexically sorted list. -/
def insertSorted (a : String) : List String → List String
  | [] => [a]
  | b :: l => if strLe a b then a :: b :: l else b :: insertSorted a l

/-- Sort identifiers into lexical order (insertion sort). -/
def sortStrings : List String → List String
  | [] => []
  | a :: l => insertSorted a (sortStrings l)

/-- Modelled from the spec: the distinct canonical set of a request — the
canonical identifiers deduplicated (§4.3 step 1) and held in lexical order so
that the result is independent of input order (§8); the Python resolver is
not in `src/`. -/
def canonicalSet (l : List String) : List String := sortStrings (dedupFirst l)

/-- Modelled from the spec: enumerate all C(n,2) unordered pairs over the
canonical set, each normalized to (drug_a ≤ drug_b) order (§4.3 step 2). -/
def pairsOf : List String → List Pair
  | [] => []
  | a :: l => l.map (fun b => orderPair a b) ++ pairsOf l

/-- The payload returned by the external drug-knowledge collaborator for a
pair (spec §6: `lookup(canonical_a, canonical_b) -> severity+description |
absent`). -/
structure KnowledgeInfo where
  severity : Severity
  description : String
  mechanism : Option String
  management : Option String
  clinical_effects : List String
  source : Option String
deriving DecidableEq, Repr

/-- A drug entry as surfaced by the same-class substitution collaborator,
mirroring `Drug` of `src/frontend/lib/api.ts`. -/
structure DrugInfo where
  name : String
  generic_name : Option String
  brand_names : List String
  drug_class : Option String
  description : Option String
deriving DecidableEq, Repr

/-- The external collaborators of the resolver: the drug-knowledge lookup
(`none` also models a `KnowledgeLookupTimeout`, spec §7) and the same-class
substitution source (spec §4.3 step 5). -/
structure Collaborators where
  kb : Pair → Option KnowledgeInfo
  subs : String → List DrugInfo

/-- Build the interaction record for a pair from a knowledge-lookup result. -/
def mkRecord (p : Pair) (i : KnowledgeInfo) : InteractionRecord :=
  { drug_a := p.1, drug_b := p.2, severity := i.severity,
    description := i.description, mechanism := i.mechanism,
    management := i.management, clinical_effects := i.clinical_effects,
    source := i.source }

/-- The implicit `none`-severity record for a pair the collaborator cannot
resolve (spec §4.3 step 3). -/
def noneRecord (p : Pair) : InteractionRecord :=
  { drug_a := p.1, drug_b := p.2, severity := .none,
    description := "No known interaction", mechanism := none,
    management := none, clinical_effects := [], source := none }

/-- Modelled from the spec: per-pair cache-aside lookup (§4.3 step 3) — check
the cache; on a miss invoke the knowledge collaborator and write the result
back before using it; a miss the collaborator cannot resolve yields an
implicit `none`-severity record that is NOT cached.  The Python resolver is
not in `src/`. -/
def lookupPair (kb : Pair → Option KnowledgeInfo) (st : CacheStore) (p : Pair) :
    InteractionRecord × CacheStore :=
  match get st p with
  | some r => (r, st)
  | none =>
    match kb p with
    | some info => (mkRecord p info, put st (mkRecord p info))
    | none => (noneRecord p, st)

/-- Resolve every pair in order, threading the cache store through the
cache-aside lookups. -/
def resolvePairs (kb : Pair → Option KnowledgeInfo) :
    List Pair → CacheStore → List InteractionRecord × CacheStore
  | [], st => ([], st)
  | p :: ps, st =>
    let rs := lookupPair kb st p
    let rest := resolvePairs kb ps rs.2
    (rs.1 :: rest.1, rest.2)

/-- The drug-check result, mirroring `DrugCheckResponse` of
`src/frontend/lib/api.ts`. -/
structure InteractionQueryResult where
  interactions : List InteractionRecord
  alternatives : List DrugInfo
  warnings : List String
  checked_drugs : List String
  has_severe_interactions : Bool
  has_contraindications : Bool
deriving DecidableEq, Repr

/-- One human-readable warning line for a record (spec §4.3 step 6). -/
def warningLine (r : InteractionRecord) : String :=
  r.drug_a ++ " + " ++ r.drug_b ++ ": " ++ r.description

/-- Modelled from the spec: one warning line per record at `moderate` severity
or above, in descending severity order, ties in the lexical order of the pair
(§4.3 step 6; the record list is already in pair-lexical order). -/
def warningsOf (rs : List InteractionRecord) : List String :=
  ([Severity.contraindicated, Severity.severe, Severity.moderate].map (fun s =>
    (rs.filter (fun r => r.severity = s)).map warningLine)).flatten

/-- The drugs involved in any `severe`/`contraindicated` pair (spec §4.3
step 5). -/
def involvedDrugs (rs : List InteractionRecord) : List String :=
  (rs.filter (fun r =>
    r.severity = Severity.severe || r.severity = Severity.contraindicated)).flatMap
    (fun r => [r.drug_a, r.drug_b])

/-- Deduplicate drug entries by name, keeping first occurrences. -/
def dedupDrugsAux : List DrugInfo → List String → List DrugInfo
  | [], _ => []
  | d :: l, seen =>
    if seen.contains d.name then dedupDrugsAux l seen
    else d :: dedupDrugsAux l (d.name :: seen)

/-- Modelled from the spec: alternatives (§4.3 step 5) — for drugs involved in
any `severe`/`contraindicated` pair, query the same-class substitution
collaborator and surface class-mates not already in the requested set,
deduplicated by canonical identifier. -/
def alternativesOf (subs : String → List DrugInfo) (requested : List String)
    (rs : List InteractionRecord) : List DrugInfo :=
  dedupDrugsAux
    (((dedupFirst (involvedDrugs rs)).flatMap subs).filter
      (fun d => ¬ requested.contains d.name))
    []

/-- Modelled from the spec: the resolution core over an already-canonicalized
request (§4.3 steps 1–6); the Python resolver is not in `src/`. -/
def resolveCore (co : Collaborators) (st : CacheStore) (canon : List String) :
    InteractionQueryResult × CacheStore :=
  let cs := canonicalSet canon
  let found := resolvePairs co.kb (pairsOf cs) st
  let interactions := found.1.filter (fun r => ¬ r.severity = Severity.none)
  ({ interactions := interactions,
     alternatives := alternativesOf co.subs cs found.1,
     warnings := warningsOf interactions,
     checked_drugs := cs,
     has_severe_interactions := found.1.any (fun r =>
       r.severity = Severity.severe || r.severity = Severity.contraindicated),
     has_contraindications := found.1.any (fun r =>
       r.severity = Severity.contraindicated) },
   found.2)

/-- Canonicalize every input name, propagating the first failure. -/
def canonicalizeAll : List String → Except DrugError (List String)
  | [] => .ok []
  | n :: l => do
    let c ← canonicalize n
    let cs ← canonicalizeAll l
    pure (c :: cs)

/-- Modelled from the spec: `resolve(drug_names) -> InteractionQueryResult`
(§4.3) — input above the maximum of 10 is rejected with `TooManyDrugs` (§7),
names are canonicalized and deduplicated, all pairs over the distinct
canonical set are resolved through the cache, and the result is aggregated;
the final cache store is returned alongside.  The Python resolver is not in
`src/`. -/
def resolve (co : Collaborators) (st : CacheStore) (names : List String) :
    Except DrugError (InteractionQueryResult × CacheStore) :=
  if names.length > 10 then .error .TooManyDrugs
  else do
    let canon ← canonicalizeAll names
    pure (resolveCore co st canon)

/-- Modelled from the spec: the seeded drug-knowledge collaborator entries
used by the spec's scenarios (§8); the Python seed data is not in `src/`. -/
def demoKB : Pair → Option KnowledgeInfo := fun p =>
  if p = ("lisinopril", "spironolactone") then
    some { severity := .severe, description := "Risk of hyperkalemia",
           mechanism := none, management := none,
           clinical_effects := ["hyperkalemia"], source := some "seed" }
  else if p = ("aspirin", "warfarin") then
    some { severity := .moderate, description := "Increased bleeding risk",
           mechanism := none, management := none,
           clinical_effects := ["bleeding"], source := some "seed" }
  else none

/-- A substitution collaborator offering no class-mates. -/
def demoSubs : String → List DrugInfo := fun _ => []

/-- The demo collaborators bundle. -/
def demoCollab : Collaborators := { kb := demoKB, subs := demoSubs }

example :
    (resolve demoCollab [] ["Aldactone", "Zestril"]).map
      (fun r => (r.1.has_severe_interactions, r.1.checked_drugs)) =
    .ok (true, ["lisinopril", "spironolactone"]) := rfl

example :
    (resolve demoCollab [] ["Aspirin"]).map (fun r => r.1.interactions) =
    .ok [] := rfl

theorem mem_dedupFirstAux (l seen : List String) (x : String) :
    x ∈ dedupFirstAux l seen ↔ x ∈ l ∧ x ∉ seen := by
  induction l generalizing seen with
  | nil => simp [dedupFirstAux]
  | cons a l ih =>
    by_cases ha : seen.contains a = true
    · have ha' : a ∈ seen := by simpa using ha
      rw [dedupFirstAux, if_pos ha, ih]
      by_cases hx : x = a
      · subst hx; simp [ha']
      · simp [hx]
    · have ha' : a ∉ seen := by simpa using ha
      rw [dedupFirstAux, if_neg ha]
      by_cases hx : x = a
      · subst hx; simp [ha', ih]
      · simp [hx, ih]

theorem nodup_dedupFirstAux (l seen : List String) : (dedupFirstAux l seen).Nodup := by
  induction l generalizing seen with
  | nil => exact List.nodup_nil
  | cons a l ih =>
    by_cases ha : seen.contains a = true
    · rw [dedupFirstAux, if_pos ha]; exact ih seen
    · rw [dedupFirstAux, if_neg ha]
      refine List.Nodup.cons ?_ (ih (a :: seen))
      intro hmem
      have := (mem_dedupFirstAux l (a :: seen) a).mp hmem
      simp at this

theorem mem_dedupFirst (l : List String) (x : String) : x ∈ dedupFirst l ↔ x ∈ l := by
  rw [dedupFirst, mem_dedupFirstAux]
  simp

theorem nodup_dedupFirst (l : List String) : (dedupFirst l).Nodup :=
  nodup_dedupFirstAux l []

theorem insertSorted_perm (a : String) (l : List String) :
    (insertSorted a l).Perm (a :: l) := by
  induction l with
  | nil => exact List.Perm.refl _
  | cons b l ih =>
    by_cases h : strLe a b = true
    · rw [insertSorted, if_pos h]
    · rw [insertSorted, if_neg h]
      exact (ih.cons b).trans (List.Perm.swap a b l)

theorem sortStrings_perm (l : List String) : (sortStrings l).Perm l := by
  induction l with
  | nil => exact List.Perm.refl _
  | cons a l ih =>
    exact (insertSorted_perm a (sortStrings l)).trans (ih.cons a)

theorem canonicalSet_perm_dedup (l : List String) :
    (canonicalSet l).Perm (dedupFirst l) := sortStrings_perm _

theorem canonicalSet_nodup (l : List String) : (canonicalSet l).Nodup :=
  (canonicalSet_perm_dedup l).nodup_iff.mpr (nodup_dedupFirst l)

theorem mem_canonicalSet (l : List String) (x : String) :
    x ∈ canonicalSet l ↔ x ∈ l := by
  rw [(canonicalSet_perm_dedup l).mem_iff, mem_dedupFirst]

theorem pairsOf_length (l : List String) :
    (pairsOf l).length = Nat.choose l.length 2 := by
  induction l with
  | nil => rfl
  | cons a l ih =>
    rw [pairsOf, List.length_append, List.length_map, ih, List.length_cons,
      Nat.choose_succ_succ, Nat.choose_one_right]

theorem resolvePairs_length (kb : Pair → Option KnowledgeInfo) (ps : List Pair)
    (st : CacheStore) : (resolvePairs kb ps st).1.length = ps.length := by
  induction ps generalizing st with
  | nil => rfl
  | cons p ps ih =>
    rw [resolvePairs]
    simpa using ih (lookupPair kb st p).2

theorem resolve_eq_core (co : Collaborators) (st : CacheStore)
    (names canon : List String) (hc : canonicalizeAll names = .ok canon)
    (hn : ¬ names.length > 10) :
    resolve co st names = .ok (resolveCore co st canon) := by
  rw [resolve, if_neg hn]
  show (canonicalizeAll names).bind _ = _
  rw [hc]
  rfl

/-- C6: `canonicalize` is a pure, deterministic function: it fails with
`UnresolvedDrugName` if and only if the input is empty after normalization;
every other input yields a canonical identifier — the alias-table resolution
when one exists, and for unknown names their own normalized string — and the
same input string always maps to the same identifier. -/
theorem canonicalize_contract (raw : String) :
    (canonicalize raw = .error DrugError.UnresolvedDrugName ↔ normalizeName raw = "") ∧
    (normalizeName raw ≠ "" →
      canonicalize raw =
        .ok ((aliasTable.lookup (normalizeName raw)).getD (normalizeName raw))) ∧
    (∀ raw2 : String, raw2 = raw → canonicalize raw2 = canonicalize raw) := by
  refine ⟨?_, ?_, fun raw2 h => by rw [h]⟩
  · rw [canonicalize]
    by_cases h : normalizeName raw = ""
    · simp [h]
    · rcases hl : aliasTable.lookup (normalizeName raw) with _ | g
      · simp [h, hl]
      · simp [h, hl]
  · intro h
    rw [canonicalize]
    rcases hl : aliasTable.lookup (normalizeName raw) with _ | g
    · simp [h, hl]
    · simp [h, hl]

/-- Witness for C6: the empty-after-normalization input fails, a known brand
name resolves through the alias table, and an unknown well-formed name passes
through as its own normalized identifier. -/
theorem canonicalize_contract_witness :
    canonicalize " 500 mg " = .error DrugError.UnresolvedDrugName ∧
    canonicalize "Vancomycin 500 mg" = .ok "vancomycin" := by
  constructor
  · exact (canonicalize_contract " 500 mg ").1.mpr (by decide)
  · exact ((canonicalize_contract "Vancomycin 500 mg").2.1 (by decide)).trans rfl

/-- C4: `resolve` canonicalizes each name, deduplicates the canonical
identifiers, and enumerates pairs only over the distinct canonical set:
`checked_drugs` is exactly the distinct canonical identifiers of the input
(no duplicates), and the number of resolved pair records is exactly
C(distinct_n, 2) — duplicate entries never increase the enumerated pair
count. -/
theorem resolve_dedup_pair_bound (co : Collaborators) (st : CacheStore)
    (names canon : List String) (res : InteractionQueryResult) (st' : CacheStore)
    (hn : ¬ names.length > 10) (hc : canonicalizeAll names = .ok canon)
    (hr : resolve co st names = .ok (res, st')) :
    res.checked_drugs = canonicalSet canon ∧
    res.checked_drugs.Nodup ∧
    (∀ x, x ∈ res.checked_drugs ↔ x ∈ canon) ∧
    (resolvePairs co.kb (pairsOf res.checked_drugs) st).1.length
      = Nat.choose res.checked_drugs.length 2 := by
  have hcore := (resolve_eq_core co st names canon hc hn).symm.trans hr
  have hps : resolveCore co st canon = (res, st') := Except.ok.inj hcore
  have hres : res = (resolveCore co st canon).1 := by rw [hps]
  have hcd : res.checked_drugs = canonicalSet canon := by
    rw [hres]; rfl
  refine ⟨hcd, ?_, ?_, ?_⟩
  · rw [hcd]; exact canonicalSet_nodup canon
  · intro x; rw [hcd]; exact mem_canonicalSet canon x
  · rw [resolvePairs_length, pairsOf_length]

/-- Witness for C4: a four-name request with duplicate and alias-equal entries
(Aspirin twice, Aldactone and its generic spironolactone) resolves to two
distinct canonical drugs and C(2,2·)=1 enumerated pair. -/
theorem resolve_dedup_pair_bound_witness :
    (resolveCore demoCollab [] ["aspirin", "spironolactone", "aspirin", "spironolactone"]).1.checked_drugs
      = ["aspirin", "spironolactone"] ∧
    (resolvePairs demoCollab.kb
      (pairsOf (resolveCore demoCollab []
        ["aspirin", "spironolactone", "aspirin", "spironolactone"]).1.checked_drugs) []).1.length = 1 := by
  have h := resolve_dedup_pair_bound demoCollab []
    ["Aspirin", "Aldactone", "aspirin", "Spironolactone"]
    ["aspirin", "spironolactone", "aspirin", "spironolactone"]
    (resolveCore demoCollab [] ["aspirin", "spironolactone", "aspirin", "spironolactone"]).1
    (resolveCore demoCollab [] ["aspirin", "spironolactone", "aspirin", "spironolactone"]).2
    (by decide) rfl rfl
  refine ⟨h.1.trans (by rfl), ?_⟩
  rw [h.2.2.2, h.1]
  rfl

/-- C3: the result's `interactions` list is exactly the non-`none`-severity
records found for the input pairs; `has_severe_interactions` is true iff at
least one returned record has severity `severe` or `contraindicated`;
`has_contraindications` is true iff at least one returned record has severity
`contraindicated`. -/
theorem resolve_aggregation (co : Collaborators) (st : CacheStore)
    (names canon : List String) (res : InteractionQueryResult) (st' : CacheStore)
    (hn : ¬ names.length > 10) (hc : canonicalizeAll names = .ok canon)
    (hr : resolve co st names = .ok (res, st')) :
    res.interactions = (resolvePairs co.kb (pairsOf (canonicalSet canon)) st).1.filter
        (fun r => ¬ r.severity = Severity.none) ∧
    (res.has_severe_interactions = true ↔
      ∃ r ∈ res.interactions,
        r.severity = Severity.severe ∨ r.severity = Severity.contraindicated) ∧
    (res.has_contraindications = true ↔
      ∃ r ∈ res.interactions, r.severity = Severity.contraindicated) := by
  have hcore := (resolve_eq_core co st names canon hc hn).symm.trans hr
  have hps : resolveCore co st canon = (res, st') := Except.ok.inj hcore
  have hres : res = (resolveCore co st canon).1 := by rw [hps]
  subst hres
  rw [resolveCore]
  refine ⟨rfl, ?_, ?_⟩
  · simp only [List.any_eq_true, Bool.or_eq_true, decide_eq_true_eq, List.mem_filter]
    constructor
    · rintro ⟨r, hm, hs⟩
      refine ⟨r, ⟨hm, ?_⟩, hs⟩
      rcases hs with hs | hs <;> simp [hs]
    · rintro ⟨r, ⟨hm, _⟩, hs⟩
      exact ⟨r, hm, hs⟩
  · simp only [List.any_eq_true, decide_eq_true_eq, List.mem_filter]
    constructor
    · rintro ⟨r, hm, hs⟩
      exact ⟨r, ⟨hm, by simp [hs]⟩, hs⟩
    · rintro ⟨r, ⟨hm, _⟩, hs⟩
      exact ⟨r, hm, hs⟩

/-- Witness for C3: the Aspirin/Coumadin check returns exactly the one
moderate (non-`none`) record with both flags false. -/
theorem resolve_aggregation_witness :
    ((resolveCore demoCollab [] ["aspirin", "warfarin"]).1.has_severe_interactions = true ↔
      ∃ r ∈ (resolveCore demoCollab [] ["aspirin", "warfarin"]).1.interactions,
        r.severity = Severity.severe ∨ r.severity = Severity.contraindicated) :=
  (resolve_aggregation demoCollab [] ["Aspirin", "Coumadin"] ["aspirin", "warfarin"]
    (resolveCore demoCollab [] ["aspirin", "warfarin"]).1
    (resolveCore demoCollab [] ["aspirin", "warfarin"]).2
    (by decide) rfl rfl).2.1

theorem dedupFirst_pair (a b : String) (hab : a ≠ b) : dedupFirst [a, b] = [a, b] := by
  have hba : b ≠ a := Ne.symm hab
  simp [dedupFirst, dedupFirstAux, hba]

theorem canonicalSet_pair_comm (a b : String) :
    canonicalSet [a, b] = canonicalSet [b, a] := by
  by_cases hab : a = b
  · subst hab; rfl
  · rw [canonicalSet, canonicalSet, dedupFirst_pair a b hab,
      dedupFirst_pair b a (Ne.symm hab)]
    rcases h1 : strLe a b with _ | _ <;> rcases h2 : strLe b a with _ | _
    · rcases strLe_total a b with h | h
      · rw [h1] at h; exact absurd h (by simp)
      · rw [h2] at h; exact absurd h (by simp)
    · simp [sortStrings, insertSorted, h1, h2]
    · simp [sortStrings, insertSorted, h1, h2]
    · exact absurd (strLe_antisymm h1 h2) hab

/-- C2: for every valid pair of drug names, `resolve([A, B])` and
`resolve([B, A])` return identical results (order independence): the canonical
set, and with it every derived field and the final cache, are the same for
both input orders. -/
theorem resolve_order_independent (co : Collaborators) (st : CacheStore)
    (A B a b : String) (hA : canonicalize A = .ok a) (hB : canonicalize B = .ok b) :
    resolve co st [A, B] = resolve co st [B, A] := by
  have hAB : canonicalizeAll [A, B] = .ok [a, b] := by
    simp only [canonicalizeAll, hA, hB]; rfl
  have hBA : canonicalizeAll [B, A] = .ok [b, a] := by
    simp only [canonicalizeAll, hA, hB]; rfl
  rw [resolve_eq_core co st [A, B] [a, b] hAB (by simp),
    resolve_eq_core co st [B, A] [b, a] hBA (by simp)]
  simp only [resolveCore]
  rw [canonicalSet_pair_comm a b]

/-- Witness for C2: checking Aldactone with Zestril is identical in either
input order. -/
theorem resolve_order_independent_witness :
    resolve demoCollab [] ["Aldactone", "Zestril"] =
    resolve demoCollab [] ["Zestril", "Aldactone"] :=
  resolve_order_independent demoCollab [] "Aldactone" "Zestril"
    "spironolactone" "lisinopril" rfl rfl

theorem pairsOf_short {l : List String} (h : l.length < 2) : pairsOf l = [] := by
  cases l with
  | nil => rfl
  | cons x t =>
    cases t with
    | nil => rfl
    | cons y t2 => exact absurd h (by simp)

/-- C5: an input that yields fewer than 2 distinct canonical drugs after
deduplication returns an empty, all-`none` result (no interactions, no
alternatives, no warnings, both flags false, cache untouched) rather than
failing, while an input list of more than 10 names is rejected with
`TooManyDrugs`. -/
theorem resolve_edge_bounds (co : Collaborators) (st : CacheStore)
    (names canon : List String)
    (hn : ¬ names.length > 10) (hc : canonicalizeAll names = .ok canon)
    (hlt : (canonicalSet canon).length < 2) :
    resolve co st names = .ok
      ({ interactions := [], alternatives := [], warnings := [],
         checked_drugs := canonicalSet canon,
         has_severe_interactions := false, has_contraindications := false }, st) ∧
    ∀ names2 : List String, names2.length > 10 →
      resolve co st names2 = .error DrugError.TooManyDrugs := by
  constructor
  · rw [resolve_eq_core co st names canon hc hn]
    simp only [resolveCore]
    rw [pairsOf_short hlt]
    rfl
  · intro names2 h2
    rw [resolve, if_pos h2]

/-- Witness for C5: the single-drug request `["Aspirin"]` returns the empty
all-`none` result, and an 11-name request is rejected. -/
theorem resolve_edge_bounds_witness :
    resolve demoCollab [] ["Aspirin"] = .ok
      ({ interactions := [], alternatives := [], warnings := [],
         checked_drugs := ["aspirin"],
         has_severe_interactions := false, has_contraindications := false }, []) ∧
    resolve demoCollab [] (List.replicate 11 "a") = .error DrugError.TooManyDrugs := by
  have h := resolve_edge_bounds demoCollab [] ["Aspirin"] ["aspirin"]
    (by decide) rfl (by decide)
  exact ⟨h.1.trans (by rfl), h.2 (List.replicate 11 "a") (by decide)⟩

theorem get_overwrite_ne (r : InteractionRecord) (st : CacheStore) (p : Pair)
    (h : recKey r ≠ p) : get (overwrite r st) p = get st p := by
  induction st with
  | nil => rfl
  | cons x st ih =>
    by_cases hx : recKey x = recKey r
    · rw [overwrite, if_pos hx, get, get, if_neg h, if_neg (hx ▸ (hx.symm ▸ h))]
    · rw [overwrite, if_neg hx, get, get]
      by_cases hp : recKey x = p
      · rw [if_pos hp, if_pos hp]
      · rw [if_neg hp, if_neg hp, ih]

theorem get_put_ne (st : CacheStore) (r0 : InteractionRecord) (p : Pair)
    (h : recKey (canonRec r0) ≠ p) : get (put st r0) p = get st p := by
  simp only [put]
  by_cases hk : hasKey st (recKey (canonRec r0)) = true
  · rw [if_pos hk]
    exact get_overwrite_ne _ _ _ h
  · rw [if_neg hk, get, if_neg h]

theorem orderPair_ordered (a b : String) :
    strLe (orderPair a b).1 (orderPair a b).2 = true := by
  by_cases h : strLe a b = true
  · simp [orderPair, h]
  · have h' : strLe b a = true := (strLe_total a b).resolve_left h
    simp [orderPair, h, h']

theorem pairsOf_ordered (l : List String) :
    ∀ q ∈ pairsOf l, strLe q.1 q.2 = true := by
  induction l with
  | nil => intro q hq; simp [pairsOf] at hq
  | cons a l ih =>
    intro q hq
    rw [pairsOf, List.mem_append] at hq
    rcases hq with hq | hq
    · obtain ⟨b, _, rfl⟩ := List.mem_map.mp hq
      exact orderPair_ordered a b
    · exact ih q hq

theorem canonRec_mkRecord {p : Pair} (h : strLe p.1 p.2 = true) (i : KnowledgeInfo) :
    canonRec (mkRecord p i) = mkRecord p i := by
  simp [canonRec, mkRecord, h]

theorem resolvePairs_frame (kb : Pair → Option KnowledgeInfo) (ps : List Pair)
    (st : CacheStore) (p : Pair) (hord : ∀ q ∈ ps, strLe q.1 q.2 = true)
    (hget : get st p = none) (hkb : kb p = none) :
    get (resolvePairs kb ps st).2 p = none := by
  induction ps generalizing st with
  | nil => exact hget
  | cons q ps ih =>
    have hstep : get (lookupPair kb st q).2 p = none := by
      rcases hg : get st q with _ | r
      · rcases hk : kb q with _ | info
        · simp only [lookupPair, hg, hk]; exact hget
        · simp only [lookupPair, hg, hk]
          by_cases hpq : q = p
          · exact absurd hk (by rw [hpq, hkb]; exact Option.noConfusion)
          · rw [get_put_ne st (mkRecord q info) p ?_]
            · exact hget
            · rw [canonRec_mkRecord (hord q (List.mem_cons_self q ps)) info]
              simpa [recKey, mkRecord] using hpq
      · simp only [lookupPair, hg]; exact hget
    show get (resolvePairs kb ps (lookupPair kb st q).2).2 p = none
    exact ih _ (fun r hr => hord r (List.mem_cons_of_mem q hr)) hstep

/-- C7: a cache miss for a pair that the knowledge collaborator also cannot
resolve (including a lookup timeout, modelled as an absent collaborator
result) is treated as a `none`-severity result, and the Interaction Cache
Store is left unchanged for that pair: `resolve` never writes a record back
for a negative result. -/
theorem negative_result_not_cached (co : Collaborators) (st : CacheStore)
    (names canon : List String) (p : Pair)
    (res : InteractionQueryResult) (st' : CacheStore)
    (hn : ¬ names.length > 10) (hc : canonicalizeAll names = .ok canon)
    (hget : get st p = none) (hkb : co.kb p = none)
    (hr : resolve co st names = .ok (res, st')) :
    lookupPair co.kb st p = (noneRecord p, st) ∧
    (noneRecord p).severity = Severity.none ∧
    get st' p = none := by
  refine ⟨?_, rfl, ?_⟩
  · simp only [lookupPair, hget, hkb]
  · have hcore := (resolve_eq_core co st names canon hc hn).symm.trans hr
    have hps := Except.ok.inj hcore
    have hst : st' = (resolveCore co st canon).2 := by rw [hps]
    rw [hst]
    show get (resolvePairs co.kb (pairsOf (canonicalSet canon)) st).2 p = none
    exact resolvePairs_frame co.kb _ st p (pairsOf_ordered _) hget hkb

/-- Witness for C7: the unknown pair (aspirin, vancomycin) yields the
non-cached `none`-severity record and is absent from the final cache. -/
theorem negative_result_not_cached_witness :
    lookupPair demoCollab.kb [] ("aspirin", "vancomycin")
      = (noneRecord ("aspirin", "vancomycin"), []) ∧
    get (resolveCore demoCollab [] ["aspirin", "vancomycin"]).2
      ("aspirin", "vancomycin") = none := by
  have h := negative_result_not_cached demoCollab [] ["Aspirin", "Vancomycin"]
    ["aspirin", "vancomycin"] ("aspirin", "vancomycin")
    (resolveCore demoCollab [] ["aspirin", "vancomycin"]).1
    (resolveCore demoCollab [] ["aspirin", "vancomycin"]).2
    (by decide) rfl rfl rfl rfl
  exact ⟨h.1, h.2.2⟩

/-- One role-tagged message within a conversation's ordered history (spec
glossary "Conversation turn"). -/
structure Turn where
  role : String
  content : String
deriving DecidableEq, Repr

/-- The per-conversation turn histories, keyed by conversation identifier. -/
abbrev ConvMap := List (String × List Turn)

/-- Modelled from the spec: the Conversation State Manager's state (§4.7) —
per-conversation histories plus the counter used to mint fresh conversation
identifiers; the Python conversation manager is not in `src/`. -/
structure ChatState where
  conversations : ConvMap
  counter : Nat

/-- Mint the next conversation identifier. -/
def mintId (n : Nat) : String := "conv-" ++ toString n

/-- Look up a conversation's history by identifier. -/
def lookupConv : ConvMap → String → Option (List Turn)
  | [], _ => none
  | (c, ts) :: rest, cid => if c = cid then some ts else lookupConv rest cid

/-- Modelled from the spec: `append_turn(conversation_id, turn)` (§4.7),
append-only and order-preserving. -/
def appendTurn (m : ConvMap) (cid : String) (t : Turn) : ConvMap :=
  match m with
  | [] => [(cid, [t])]
  | (c, ts) :: rest =>
    if c = cid then (c, ts ++ [t]) :: rest
    else (c, ts) :: appendTurn rest cid t

/-- Modelled from the spec: `get_history(conversation_id)` (§4.7), newest
last; an unknown conversation has the empty history. -/
def getHistory (st : ChatState) (cid : String) : List Turn :=
  (lookupConv st.conversations cid).getD []

/-- The chat request fields consumed by the conversation flow (spec §6:
{query, optional conversation_id, ...}), as sent by `handleSubmit` in the chat
page (`src/unnamed/part_002`). -/
structure ChatTurnRequest where
  query : String
  conversation_id : Option String

/-- What one chat step produces for the caller: the answer, the conversation
identifier echoed back (minted when absent, spec §4.7), and the conversation
context the answer was assembled against. -/
structure ChatStepResult where
  answer : String
  conversation_id : String
  context : List Turn

/-- Modelled from the spec: one chat turn through the orchestrator (§2, §4.7)
— when `conversation_id` is absent a fresh identifier is minted (New →
Active); the prior history of that conversation is assembled as context, the
answer is generated against it, and the user and assistant turns are appended.
The Python orchestrator is not in `src/`. -/
def chatStep (gen : List Turn → String → String) (st : ChatState)
    (req : ChatTurnRequest) : ChatState × ChatStepResult :=
  let cid := (req.conversation_id).getD (mintId st.counter)
  let counter2 := match req.conversation_id with
    | some _ => st.counter
    | none => st.counter + 1
  let history := getHistory st cid
  let answer := gen history req.query
  let convs := appendTurn (appendTurn st.conversations cid ⟨"user", req.query⟩)
    cid ⟨"assistant", answer⟩
  (⟨convs, counter2⟩, ⟨answer, cid, history⟩)

theorem lookupConv_appendTurn_self (m : ConvMap) (cid : String) (t : Turn) :
    lookupConv (appendTurn m cid t) cid =
      some ((lookupConv m cid).getD [] ++ [t]) := by
  induction m with
  | nil => simp [appendTurn, lookupConv]
  | cons p rest ih =>
    obtain ⟨c, ts⟩ := p
    by_cases h : c = cid
    · simp [appendTurn, lookupConv, h]
    · simp [appendTurn, lookupConv, h, ih]

/-- C8: a chat request submitted without a `conversation_id` starts a new
conversation whose minted identifier is returned in the response (with no
prior context), and a follow-up request reusing that returned identifier sees
the prior user and assistant turns in its assembled context; the conversation
stays Active — its stored history after the follow-up is the append-only
extension of the first turn's history. -/
theorem conversation_flow (gen : List Turn → String → String) (st : ChatState)
    (q1 q2 : String)
    (hfresh : lookupConv st.conversations (mintId st.counter) = none) :
    (chatStep gen st ⟨q1, none⟩).2.conversation_id = mintId st.counter ∧
    (chatStep gen st ⟨q1, none⟩).2.context = [] ∧
    (chatStep gen (chatStep gen st ⟨q1, none⟩).1
        ⟨q2, some (chatStep gen st ⟨q1, none⟩).2.conversation_id⟩).2.context
      = [⟨"user", q1⟩, ⟨"assistant", gen [] q1⟩] ∧
    lookupConv (chatStep gen (chatStep gen st ⟨q1, none⟩).1
        ⟨q2, some (chatStep gen st ⟨q1, none⟩).2.conversation_id⟩).1.conversations
        (mintId st.counter)
      = some [⟨"user", q1⟩, ⟨"assistant", gen [] q1⟩, ⟨"user", q2⟩,
          ⟨"assistant", gen [⟨"user", q1⟩, ⟨"assistant", gen [] q1⟩] q2⟩] := by
  have hhist1 : getHistory st (mintId st.counter) = [] := by
    rw [getHistory, hfresh]; rfl
  have hctx1 : (chatStep gen st ⟨q1, none⟩).2.context = [] := hhist1
  have hcid : (chatStep gen st ⟨q1, none⟩).2.conversation_id = mintId st.counter := rfl
  have hconvs1 : (chatStep gen st ⟨q1, none⟩).1.conversations
      = appendTurn (appendTurn st.conversations (mintId st.counter)
          ⟨"user", q1⟩) (mintId st.counter)
          ⟨"assistant", gen (getHistory st (mintId st.counter)) q1⟩ := rfl
  have hlook1 : lookupConv (chatStep gen st ⟨q1, none⟩).1.conversations
      (mintId st.counter) = some [⟨"user", q1⟩, ⟨"assistant", gen [] q1⟩] := by
    rw [hconvs1, lookupConv_appendTurn_self, lookupConv_appendTurn_self, hfresh, hhist1]
    rfl
  refine ⟨hcid, hctx1, ?_, ?_⟩
  · show getHistory (chatStep gen st ⟨q1, none⟩).1 (mintId st.counter)
      = [⟨"user", q1⟩, ⟨"assistant", gen [] q1⟩]
    rw [getHistory, hlook1]
    rfl
  · show lookupConv
        (appendTurn (appendTurn (chatStep gen st ⟨q1, none⟩).1.conversations
            (mintId st.counter) ⟨"user", q2⟩) (mintId st.counter)
          ⟨"assistant", gen (getHistory (chatStep gen st ⟨q1, none⟩).1
              (mintId st.counter)) q2⟩)
        (mintId st.counter) = _
    rw [lookupConv_appendTurn_self, lookupConv_appendTurn_self, hlook1]
    have hh2 : getHistory (chatStep gen st ⟨q1, none⟩).1 (mintId st.counter)
        = [⟨"user", q1⟩, ⟨"assistant", gen [] q1⟩] := by
      rw [getHistory, hlook1]; rfl
    rw [hh2]
    rfl

/-- Witness for C8: from the empty state, the first query mints `conv-0`, and
the follow-up sees the prior turn. -/
theorem conversation_flow_witness :
    (chatStep (fun _ q => "answer to " ++ q) ⟨[], 0⟩ ⟨"q1", none⟩).2.conversation_id
      = "conv-0" ∧
    (chatStep (fun _ q => "answer to " ++ q)
        (chatStep (fun _ q => "answer to " ++ q) ⟨[], 0⟩ ⟨"q1", none⟩).1
        ⟨"q2", some (chatStep (fun _ q => "answer to " ++ q) ⟨[], 0⟩
            ⟨"q1", none⟩).2.conversation_id⟩).2.context
      = [⟨"user", "q1"⟩, ⟨"assistant", "answer to q1"⟩] := by
  have h := conversation_flow (fun _ q => "answer to " ++ q) ⟨[], 0⟩ "q1" "q2" rfl
  exact ⟨h.1.trans rfl, h.2.2.1.trans rfl⟩

/-- The `Citation` interface of `src/frontend/lib/api.ts` (lines 8–19):
id, title, snippet and relevance_score are required, the rest optional (the
TypeScript `number` score is modelled as a rational). -/
structure Citation where
  id : Nat
  title : String
  authors : Option (List String)
  journal : Option String
  year : Option Nat
  doi : Option String
  pmid : Option String
  url : Option String
  snippet : String
  relevance_score : Rat
deriving DecidableEq, Repr

/-- The `ChatResponse` interface of `src/frontend/lib/api.ts` (lines 21–28). -/
structure ChatResponse where
  answer : String
  sources : List Citation
  conversation_id : String
  query_id : String
  processing_time_ms : Nat
  model_used : String
deriving DecidableEq, Repr

/-- A retrieved passage (spec §3 RetrievedPassage): the per-query source
metadata a citation is built from. -/
structure RetrievedPassage where
  title : String
  authors : Option (List String)
  journal : Option String
  year : Option Nat
  doi : Option String
  pmid : Option String
  url : Option String
  snippet : String
  relevance_score : Rat
deriving DecidableEq, Repr

/-- Build the citation numbered `k` for a passage. -/
def mkCitation (k : Nat) (p : RetrievedPassage) : Citation :=
  { id := k, title := p.title, authors := p.authors, journal := p.journal,
    year := p.year, doi := p.doi, pmid := p.pmid, url := p.url,
    snippet := p.snippet, relevance_score := p.relevance_score }

/-- Number citations consecutively starting from `k`. -/
def assignCitationIdsFrom (k : Nat) : List RetrievedPassage → List Citation
  | [] => []
  | p :: ps => mkCitation k p :: assignCitationIdsFrom (k + 1) ps

/-- Modelled from the spec: citation ids are assigned sequentially per answer,
1..n in inclusion order (§4.5, §6); the Python context assembler is not in
`src/`. -/
def assignCitationIds (ps : List RetrievedPassage) : List Citation :=
  assignCitationIdsFrom 1 ps

theorem assignCitationIdsFrom_ids (k : Nat) (ps : List RetrievedPassage) :
    (assignCitationIdsFrom k ps).map Citation.id = List.range' k ps.length := by
  induction ps generalizing k with
  | nil => rfl
  | cons p ps ih =>
    simp [assignCitationIdsFrom, mkCitation, List.range', ih]

/-- C9: every chat response carries exactly the fields answer, sources,
conversation_id, query_id, processing_time_ms and model_used; every Citation
carries an id, a title, a snippet, a relevance_score, and optional
authors/journal/year/doi/pmid/url; and the ids assigned to an answer's
citations are sequential (1..n). -/
theorem chat_response_shape (r : ChatResponse) (c : Citation)
    (ps : List RetrievedPassage) :
    r = { answer := r.answer, sources := r.sources,
          conversation_id := r.conversation_id, query_id := r.query_id,
          processing_time_ms := r.processing_time_ms,
          model_used := r.model_used } ∧
    c = { id := c.id, title := c.title, authors := c.authors,
          journal := c.journal, year := c.year, doi := c.doi, pmid := c.pmid,
          url := c.url, snippet := c.snippet,
          relevance_score := c.relevance_score } ∧
    (assignCitationIds ps).map Citation.id = List.range' 1 ps.length :=
  ⟨rfl, rfl, assignCitationIdsFrom_ids 1 ps⟩

/-- The parse outcome of a fetch response body, as consumed by
`ApiClient.request` in `src/frontend/lib/api.ts`: `errorDetail` is the body
parsed as a JSON object on the non-ok path (`none` models a parse failure,
caught and replaced by `{}`; the inner option is the `detail` field), and
`value` is the body parsed as the expected payload type on the ok path
(`none` models a parse failure). -/
structure HttpResponse (α : Type) where
  ok : Bool
  status : Nat
  errorDetail : Option (Option String)
  value : Option α

/-- The observable outcome of `ApiClient.request`: a returned value, or a
thrown `Error` with its message. -/
inductive RequestOutcome (α : Type) where
  | success (v : α)
  | failure (message : String)
deriving DecidableEq, Repr

/-- The fallback error message of `ApiClient.request`
(`src/frontend/lib/api.ts`, line 156). -/
def httpErrorMessage (status : Nat) : String :=
  "HTTP error! status: " ++ toString status

/-- Embedding of `ApiClient.request` (`src/frontend/lib/api.ts`, lines
141–160): on a non-ok response the body is parsed as JSON (a parse failure is
caught, yielding `{}`) and an Error is thrown with
`error.detail || "HTTP error! status: <code>"` — the JavaScript `||` falls
through to the fallback when `detail` is absent or the empty string; on an ok
response the body parsed as the payload type is returned (a parse failure
there also throws). -/
def request {α : Type} (resp : HttpResponse α) : RequestOutcome α :=
  if resp.ok then
    match resp.value with
    | some v => .success v
    | none => .failure "invalid json"
  else
    match resp.errorDetail.getD none with
    | some d =>
      if d = "" then .failure (httpErrorMessage resp.status)
      else .failure d
    | none => .failure (httpErrorMessage resp.status)

/-- Counterexample for C10 as stated: a non-ok response whose body carries the
`detail` field with the empty string — `detail` is present, yet the thrown
Error carries the fallback `HTTP error! status: 500` message, not the detail,
because the JavaScript `||` treats `""` as absent. -/
theorem request_detail_counterexample :
    ({ ok := false, status := 500, errorDetail := some (some ""), value := none } :
        HttpResponse Unit).errorDetail = some (some "") ∧
    request ({ ok := false, status := 500, errorDetail := some (some ""),
               value := none } : HttpResponse Unit)
      = .failure (httpErrorMessage 500) ∧
    httpErrorMessage 500 ≠ "" := by
  refine ⟨rfl, rfl, ?_⟩
  intro h
  exact absurd (congrArg String.length h) (by decide)

/-- C10 (amended): `ApiClient.request` returns a value only when the HTTP
response status is ok; every non-ok response throws an Error — carrying the
body's `detail` field when it is present and non-empty (JavaScript
truthiness), and otherwise (detail absent, body unparseable, or detail the
empty string) the message `HTTP error! status: <code>` — and never silently
returns a result. -/
theorem request_error_contract {α : Type} (resp : HttpResponse α) :
    ((∃ v, request resp = .success v) → resp.ok = true) ∧
    (resp.ok = false → ∀ v, request resp ≠ RequestOutcome.success v) ∧
    (resp.ok = false → ∀ d, resp.errorDetail = some (some d) → d ≠ "" →
      request resp = .failure d) ∧
    (resp.ok = false →
      resp.errorDetail.getD none = none ∨ resp.errorDetail.getD none = some "" →
      request resp = .failure (httpErrorMessage resp.status)) := by
  obtain ⟨ok, status, ed, v⟩ := resp
  cases ok with
  | true =>
    refine ⟨fun _ => rfl, ?_, ?_, ?_⟩ <;> intro h <;> exact absurd h (by simp)
  | false =>
    have hnot : ∀ v' : α,
        request (⟨false, status, ed, v⟩ : HttpResponse α) ≠ .success v' := by
      intro v' hv
      rcases ed with _ | ed0
      · simp [request] at hv
      · rcases ed0 with _ | d
        · simp [request] at hv
        · by_cases hd : d = ""
          · simp [request, hd] at hv
          · simp [request, hd] at hv
    refine ⟨?_, fun _ => hnot, ?_, ?_⟩
    · rintro ⟨v', hv⟩
      exact absurd hv (hnot v')
    · rintro - d hed hd
      rcases ed with _ | ed0
      · exact absurd hed (by simp)
      · have : ed0 = some d := by simpa using hed
        subst this
        simp [request, hd]
    · rintro - h
      rcases ed with _ | ed0
      · simp [request]
      · rcases ed0 with _ | d
        · simp [request]
        · rcases h with h | h
          · exact absurd h (by simp)
          · have : d = "" := by simpa using h
            subst this
            simp [request]

/-- Witness for C10 (amended): a 401 response with `detail` set throws the
detail message. -/
theorem request_error_contract_witness :
    request ({ ok := false, status := 401,
               errorDetail := some (some "Invalid credentials"),
               value := none } : HttpResponse Unit)
      = .failure "Invalid credentials" :=
  (request_error_contract
    ({ ok := false, status := 401,
       errorDetail := some (some "Invalid credentials"),
       value := none } : HttpResponse Unit)).2.2.1
    rfl "Invalid credentials" rfl (by decide)

end MedAssist
